import Mathlib

/-
Verification of the simplate rendering pipeline of the aspen.py repository.

The definitions below are a shallow embedding of the code in
`aspen/simplates/simplate.py` and `aspen/simplates/json_.py`:
Python dicts become insertion-ordered association lists, mutable Python
objects reachable from bindings become references into an explicit heap,
and the dynamically executed logic pages become explicit functions from
context and heap to context, heap and an optional output body.
-/

namespace AspenSpec

/-! ## Pages and normalization (`Simplate.parse_into_pages`) -/

/-- Modelled from the spec: the `Page` record of the pagination module
(`aspen/simplates/pagination.py` is not part of the available sources).
A page has the header text following its boundary marker, its content,
and the 0-based line offset at which the content begins. -/
structure Page where
  header : String
  content : String
  offset : Nat
deriving DecidableEq, Repr

/-- The synthesized empty page, `Page('')` in the source: empty content,
empty header, zero offset. -/
def blankPage : Page := ⟨"", "", 0⟩

/-- Embedding of `Simplate.parse_into_pages` (simplate.py lines 99-122),
acting on the list of pages produced by the splitter.  The splitter always
produces at least one page; on an empty list the Python code would raise
an IndexError at `pages[1].header`, the final catch-all arm is unreachable
in practice. -/
def parse_into_pages (pages : List Page) : List Page :=
  let npages := pages.length
  let blank := [blankPage]
  if npages = 1 then blank ++ blank ++ pages
  else if npages = 2 then blank ++ pages
  else match pages with
    | p0 :: p1 :: rest =>
      if p1.header ≠ "" then blank ++ (p0 :: p1 :: rest)
      else p0 :: p1 :: rest
    | other => other

/-- The normalization contract as written in the spec's disambiguation
table (spec section 4.2), stated independently of the source so the two
can be compared. -/
def normalizeSpecTable (pages : List Page) : List Page :=
  match pages with
  | [p] => [blankPage, blankPage, p]
  | [p0, p1] => [blankPage, p0, p1]
  | p0 :: p1 :: rest =>
    if p1.header ≠ "" then blankPage :: p0 :: p1 :: rest
    else p0 :: p1 :: rest
  | [] => []

/-! ## Python dicts as insertion-ordered association lists -/

/-- First-match lookup, `d.get(k)` / `d[k]` on a Python dict (keys are
unique in an actual dict, so first match is the match). -/
def alistGet {α : Type} : List (String × α) → String → Option α
  | [], _ => none
  | (k', v) :: rest, k => if k' = k then some v else alistGet rest k

/-- `d[k] = v` on a Python dict: replace in place if the key is present,
otherwise append, preserving insertion order. -/
def dictSet {α : Type} : List (String × α) → String → α → List (String × α)
  | [], k, v => [(k, v)]
  | (k', v') :: rest, k, v =>
    if k' = k then (k', v) :: rest else (k', v') :: dictSet rest k v

/-- `d.update(other)`: assign every entry of `other` in order. -/
def dictUpdate {α : Type} (d other : List (String × α)) : List (String × α) :=
  other.foldl (fun acc p => dictSet acc p.1 p.2) d

theorem alistGet_dictSet_self {α : Type} (d : List (String × α)) (k : String) (v : α) :
    alistGet (dictSet d k v) k = some v := by
  induction d with
  | nil => simp [dictSet, alistGet]
  | cons hd tl ih =>
    by_cases h : hd.1 = k
    · simp [dictSet, alistGet, h]
    · simp [dictSet, alistGet, h, ih]

theorem alistGet_dictSet_ne {α : Type} (d : List (String × α)) (k k' : String) (v : α)
    (h : k ≠ k') : alistGet (dictSet d k v) k' = alistGet d k' := by
  induction d with
  | nil => simp [dictSet, alistGet, h]
  | cons hd tl ih =>
    by_cases hk : hd.1 = k
    · simp [dictSet, alistGet, hk, h]
    · simp [dictSet, alistGet, hk, ih]

theorem alistGet_dictUpdate_not_mem {α : Type} (d other : List (String × α)) (k : String)
    (h : k ∉ other.map Prod.fst) : alistGet (dictUpdate d other) k = alistGet d k := by
  induction other generalizing d with
  | nil => rfl
  | cons hd tl ih =>
    simp only [List.map_cons, List.mem_cons, not_or] at h
    show alistGet (dictUpdate (dictSet d hd.1 hd.2) tl) k = alistGet d k
    rw [ih _ h.2, alistGet_dictSet_ne _ _ _ _ (fun he => h.1 he.symm)]

theorem alistGet_dictUpdate_mem {α : Type} (d other : List (String × α)) (k : String) (v : α)
    (hnd : (other.map Prod.fst).Nodup) (h : alistGet other k = some v) :
    alistGet (dictUpdate d other) k = some v := by
  induction other generalizing d with
  | nil => simp [alistGet] at h
  | cons hd tl ih =>
    obtain ⟨k', v'⟩ := hd
    simp only [List.map_cons, List.nodup_cons] at hnd
    show alistGet (dictUpdate (dictSet d k' v') tl) k = some v
    by_cases hk : k' = k
    · subst hk
      simp [alistGet] at h
      rw [alistGet_dictUpdate_not_mem _ _ _ hnd.1, alistGet_dictSet_self]
      exact congrArg some h
    · simp only [alistGet, if_neg hk] at h
      exact ih _ hnd.2 h

theorem alistGet_append_left {α : Type} (l₁ l₂ : List (String × α)) (k : String) (v : α)
    (h : alistGet l₁ k = some v) : alistGet (l₁ ++ l₂) k = some v := by
  induction l₁ with
  | nil => simp [alistGet] at h
  | cons hd tl ih =>
    obtain ⟨k', v'⟩ := hd
    by_cases hk : k' = k
    · simp only [alistGet, if_pos hk] at h
      simp [alistGet, hk, h]
    · simp only [alistGet, if_neg hk] at h
      simp [alistGet, hk, ih h]

theorem alistGet_append_right {α : Type} (l₁ l₂ : List (String × α)) (k : String)
    (h : alistGet l₁ k = none) : alistGet (l₁ ++ l₂) k = alistGet l₂ k := by
  induction l₁ with
  | nil => rfl
  | cons hd tl ih =>
    obtain ⟨k', v'⟩ := hd
    by_cases hk : k' = k
    · simp [alistGet, hk] at h
    · simp only [alistGet, if_neg hk] at h
      simp [alistGet, hk, ih h]

theorem alistGet_eq_none_of_not_mem {α : Type} (l : List (String × α)) (k : String)
    (h : k ∉ l.map Prod.fst) : alistGet l k = none := by
  induction l with
  | nil => rfl
  | cons hd tl ih =>
    obtain ⟨k', v'⟩ := hd
    simp only [List.map_cons, List.mem_cons, not_or] at h
    simp only [alistGet]
    rw [if_neg (fun he => h.1 he.symm)]
    exact ih h.2

/-! ## The render model (`Simplate.render_for_type`)

Python values held in a context binding are either immutable data, a
reference to a mutable object living in an explicit heap, a list of names
(the shape `__all__` must have), or the reserved `Output` object that
`render_for_type` stores under the key `output`. -/

inductive PyVal : Type
  | imm (s : String)
  | ref (a : Nat)
  | names (l : List String)
  | outputV
deriving DecidableEq, Repr

/-- An execution context: a Python dict from names to values. -/
abbrev Ctx := List (String × PyVal)

/-- The heap of mutable objects; cell `a` holds `h[a]`. -/
abbrev Heap := List String

def heapGet (h : Heap) (a : Nat) : Option String := h.get? a

def heapSet (h : Heap) (a : Nat) (v : String) : Heap := h.set a v

/-- The `Output` object: a media type plus an optional body
(`body` is `None` until something assigns it). -/
structure Output where
  media_type : String
  body : Option String
deriving DecidableEq, Repr

/-- A compiled template's renderer: invoked on the (possibly narrowed)
context; reads but does not write the heap (the spec requires renderers
to be pure functions of their input context). -/
abbrev Renderer := Ctx → Heap → String

/-- A compiled simplate, as built by `Simplate.__init__`:
`page_one` is the context produced by executing the run-once page,
`page_two` is the compiled run-every code — an arbitrary computation on
the context, the heap and the `output.body` slot (the Python `exec` can
read and write all three), `renderers` maps media types to renderers and
`available_types` lists media types in declaration order. -/
structure Simplate where
  page_one : Ctx
  page_two : Ctx → Heap → Option String → Ctx × Heap × Option String
  renderers : List (String × Renderer)
  available_types : List String

inductive RenderErr : Type
  /-- KeyError from `self.renderers[media_type]`: the requested media
  type has no registered renderer (MediaTypeNotSupported in the spec's
  taxonomy). -/
  | mediaTypeNotSupported (media_type : String)
  /-- Error while narrowing the context to the names in `__all__`
  (KeyError on a missing name, TypeError on a non-name-list value). -/
  | narrowingError
deriving DecidableEq, Repr

/-- Lines 79-81 of simplate.py: store the fresh Output object under
`output` in the caller's context, then `context.update(self.page_one)`.
The resulting dict is what `exec(self.page_two, context)` runs in. -/
def exec_context (s : Simplate) (context : Ctx) : Ctx :=
  dictUpdate (dictSet context "output" PyVal.outputV) s.page_one

/-- Look up every name of `l` in `c`, in order; `none` if any is absent
(`context[k]` raises KeyError). -/
def narrowNames (c : Ctx) : List String → Option Ctx
  | [] => some []
  | k :: ks =>
    match alistGet c k, narrowNames c ks with
    | some v, some rest => some ((k, v) :: rest)
    | _, _ => none

/-- Lines 88-90 of simplate.py: if `__all__` is bound, templates only see
the variables it names: `context = dict((k, context[k]) for k in
context['__all__'])`. -/
def narrow (c : Ctx) : Except RenderErr Ctx :=
  match alistGet c "__all__" with
  | none => Except.ok c
  | some (PyVal.names l) =>
    match narrowNames c l with
    | some c' => Except.ok c'
    | none => Except.error RenderErr.narrowingError
  | some _ => Except.error RenderErr.narrowingError

/-- Embedding of `Simplate.render_for_type` (simplate.py lines 65-97).
Returns the Output together with the caller-visible final state: the
caller's context dict (mutated in place by the Python code up to and
including the `exec` of the run-every page — the later narrowing rebinds
only the local variable) and the heap. -/
def render_for_type (s : Simplate) (media_type : String) (context : Ctx) (heap : Heap) :
    Except RenderErr (Output × Ctx × Heap) :=
  let context := exec_context s context
  let r := s.page_two context heap none
  let context := r.1
  let heap := r.2.1
  let body := r.2.2
  match body with
  | some v => Except.ok (⟨media_type, some v⟩, context, heap)
  | none =>
    match narrow context with
    | Except.error e => Except.error e
    | Except.ok tctx =>
      match alistGet s.renderers media_type with
      | none => Except.error (RenderErr.mediaTypeNotSupported media_type)
      | some render => Except.ok (⟨media_type, some (render tctx heap)⟩, context, heap)

/-! ### Concrete simplates used in counterexamples and witnesses -/

/-- A simplate whose run-once page created a mutable object (heap cell 0)
bound to `x`; its run-every page first records the value it observes for
`x` as the output body, then mutates that object in place. -/
def sMut : Simplate where
  page_one := [("x", PyVal.ref 0)]
  page_two := fun c h _ =>
    match alistGet c "x" with
    | some (PyVal.ref a) => (c, heapSet h a "mutated", some ((heapGet h a).getD "?"))
    | _ => (c, h, some "nobinding")
  renderers := [("text/plain", fun _ _ => "rendered")]
  available_types := ["text/plain"]

/-- A simplate with empty logic pages and a single `text/plain` template. -/
def sPlain : Simplate where
  page_one := []
  page_two := fun c h b => (c, h, b)
  renderers := [("text/plain", fun _ _ => "hi")]
  available_types := ["text/plain"]

/-! ## Template-page registration (`Simplate.__init__`, lines 58-63) -/

/-- The message of the SyntaxError raised on a duplicate media type:
`"Two content pages defined for %s." % media_type`. -/
def dupMsg (media_type : String) : String :=
  "Two content pages defined for " ++ media_type ++ "."

/-- The loop body of `Simplate.__init__` over `pages[2:]`: for each
`(renderer, media_type)` pair, fail if the media type already has a
renderer, otherwise append it to `available_types` and record the
renderer.  Generic in the renderer type `R`. -/
def content_pages_go {R : Type} :
    List (R × String) → List (String × R) → List String →
    Except String (List (String × R) × List String)
  | [], rens, avail => Except.ok (rens, avail)
  | (renderer, media_type) :: rest, rens, avail =>
    if (alistGet rens media_type).isSome then Except.error (dupMsg media_type)
    else content_pages_go rest (rens ++ [(media_type, renderer)]) (avail ++ [media_type])

/-- Registration of the compiled template pages, starting from the empty
`renderers` dict and `available_types` list set up before the loop. -/
def content_pages_init {R : Type} (ps : List (R × String)) :
    Except String (List (String × R) × List String) :=
  content_pages_go ps [] []

theorem content_pages_go_ok {R : Type} (ps : List (R × String))
    (rens : List (String × R)) (avail : List String)
    (hdisj : ∀ t ∈ ps.map Prod.snd, alistGet rens t = none)
    (hnd : (ps.map Prod.snd).Nodup) :
    content_pages_go ps rens avail =
      Except.ok (rens ++ ps.map (fun p => (p.2, p.1)), avail ++ ps.map Prod.snd) := by
  induction ps generalizing rens avail with
  | nil => simp [content_pages_go]
  | cons hd tl ih =>
    obtain ⟨r, mt⟩ := hd
    simp only [List.map_cons, List.nodup_cons] at hnd
    have hmt : alistGet rens mt = none := hdisj mt (by simp)
    have hdisj' : ∀ t ∈ tl.map Prod.snd, alistGet (rens ++ [(mt, r)]) t = none := by
      intro t ht
      rw [alistGet_append_right _ _ _ (hdisj t (by simp [ht]))]
      have hne : mt ≠ t := fun he => hnd.1 (he ▸ ht)
      simp [alistGet, hne]
    simp only [content_pages_go, hmt, Option.isSome_none, Bool.false_eq_true, if_false]
    rw [ih _ _ hdisj' hnd.2]
    simp [List.append_assoc]

theorem content_pages_go_err {R : Type} (ps : List (R × String))
    (rens : List (String × R)) (avail : List String)
    (h : ¬ (ps.map Prod.snd).Nodup ∨
         ∃ t ∈ ps.map Prod.snd, (alistGet rens t).isSome = true) :
    ∃ t, t ∈ ps.map Prod.snd ∧
      content_pages_go ps rens avail = Except.error (dupMsg t) ∧
      (2 ≤ (ps.map Prod.snd).count t ∨ (alistGet rens t).isSome = true) := by
  induction ps generalizing rens avail with
  | nil =>
    exfalso
    rcases h with h | ⟨t, ht, _⟩
    · exact h List.nodup_nil
    · simp at ht
  | cons hd tl ih =>
    obtain ⟨r, mt⟩ := hd
    by_cases hc : (alistGet rens mt).isSome = true
    · refine ⟨mt, by simp, ?_, Or.inr hc⟩
      simp [content_pages_go, hc]
    · have hmt : alistGet rens mt = none := by
        cases hget : alistGet rens mt with
        | none => rfl
        | some v => exact absurd (by simp [hget]) hc
      have hstep : content_pages_go ((r, mt) :: tl) rens avail =
          content_pages_go tl (rens ++ [(mt, r)]) (avail ++ [mt]) := by
        simp [content_pages_go, hmt]
      have hself : alistGet (rens ++ [(mt, r)]) mt = some r := by
        rw [alistGet_append_right _ _ _ hmt]
        simp [alistGet]
      have h' : ¬ (tl.map Prod.snd).Nodup ∨
          ∃ t ∈ tl.map Prod.snd, (alistGet (rens ++ [(mt, r)]) t).isSome = true := by
        rcases h with h | ⟨t, ht, hsome⟩
        · simp only [List.map_cons, List.nodup_cons, not_and] at h
          by_cases hmem : mt ∈ tl.map Prod.snd
          · exact Or.inr ⟨mt, hmem, by simp [hself]⟩
          · exact Or.inl (h hmem)
        · simp only [List.map_cons, List.mem_cons] at ht
          rcases ht with rfl | ht
          · exact absurd hsome hc
          · refine Or.inr ⟨t, ht, ?_⟩
            cases hget : alistGet rens t with
            | none => rw [hget] at hsome; simp at hsome
            | some v => rw [alistGet_append_left _ _ _ _ hget]; rfl
      obtain ⟨t, htmem, herr, hcnt⟩ := ih _ _ h'
      refine ⟨t, by simp [htmem], by rw [hstep]; exact herr, ?_⟩
      rcases hcnt with hcnt | hcnt
      · refine Or.inl ?_
        simp only [List.map_cons, List.count_cons]
        exact le_trans hcnt (Nat.le_add_right _ _)
      · cases hget : alistGet rens t with
        | some v => exact Or.inr (by simp)
        | none =>
          rw [alistGet_append_right _ _ _ hget] at hcnt
          simp only [alistGet] at hcnt
          by_cases hmt' : mt = t
          · subst hmt'
            refine Or.inl ?_
            have hpos : 1 ≤ (tl.map Prod.snd).count mt := List.count_pos_iff.2 htmem
            simp only [List.map_cons, List.count_cons, beq_self_eq_true, if_true]
            omega
          · rw [if_neg hmt'] at hcnt
            simp at hcnt

/-! ## Specline validation regexes (simplate.py lines 10-11)

`renderer_re = re.compile(r'[a-z0-9.-_]+$')`: the character class parses
as the three ranges `a`-`z`, `0`-`9` and `.`-`_` — the dash between `.`
and `_` forms a *range* (code points 0x2E to 0x5F), so the class also
admits the uppercase letters, `/`, `:`, `;`, `<`, `=`, `>`, `?`, `@`,
`[`, `\`, `]`, `^` and excludes the literal dash `-` (0x2D).

`media_type_re = re.compile(r'[A-Za-z0-9.+*-]+/[A-Za-z0-9.+*-]+$')`: here
`.`, `+`, `*` are consecutive literals and the final `-` before `]` is a
literal, so the class is exactly letters, digits, `.`, `+`, `*`, `-`. -/

def rendererCharOk (c : Char) : Bool :=
  (decide ('a' ≤ c) && decide (c ≤ 'z')) ||
  (decide ('0' ≤ c) && decide (c ≤ '9')) ||
  (decide ('.' ≤ c) && decide (c ≤ '_'))

def mediaCharOk (c : Char) : Bool :=
  (decide ('A' ≤ c) && decide (c ≤ 'Z')) ||
  (decide ('a' ≤ c) && decide (c ≤ 'z')) ||
  (decide ('0' ≤ c) && decide (c ≤ '9')) ||
  c == '.' || c == '+' || c == '*' || c == '-'

/-- `re.match` of a pattern anchored by a final `$`: the match must cover
the whole string, except that `$` also matches just before a trailing
newline. -/
def reFullMatchChars (core : List Char → Bool) (s : String) : Bool :=
  core s.data ||
  (match s.data.getLast? with
   | some c => c == '\n' && core s.data.dropLast
   | none => false)

/-- The body of `[A-Za-z0-9.+*-]+/[A-Za-z0-9.+*-]+`: since `/` is not in
the class, the text must consist of exactly one `/` separating two
non-empty runs of class characters. -/
def mediaTypeCoreChars (l : List Char) : Bool :=
  match (l.span (fun c => c != '/')).2 with
  | '/' :: after =>
    !(l.span (fun c => c != '/')).1.isEmpty &&
    (l.span (fun c => c != '/')).1.all mediaCharOk &&
    !after.isEmpty && after.all mediaCharOk
  | _ => false

def rendererReMatch (s : String) : Bool :=
  reFullMatchChars (fun l => !l.isEmpty && l.all rendererCharOk) s

def mediaTypeReMatch (s : String) : Bool :=
  reFullMatchChars mediaTypeCoreChars s

/-- The renderer-name token pattern as the spec words it: lowercase
letters, digits, `.`, `-`, `_` (stated from the spec for comparison with
the source's `renderer_re`). -/
def specRendererToken (s : String) : Bool :=
  !s.isEmpty && s.data.all (fun c =>
    (decide ('a' ≤ c) && decide (c ≤ 'z')) ||
    (decide ('0' ≤ c) && decide (c ≤ '9')) ||
    c == '.' || c == '-' || c == '_')

/-! ## Renderer registry (`Simplate._get_renderer_factory`, lines 206-231) -/

/-- A registry entry: either a renderer factory, or the ImportError
stored at process start when an optional backing library failed to load.
Generic in the factory type `F` and the error payload type `E`. -/
inductive FactoryEntry (F E : Type) : Type
  | factory (f : F)
  | importFailure (e : E)
deriving DecidableEq, Repr

abbrev Factories (F E : Type) := List (String × FactoryEntry F E)

def isImportFailure {F E : Type} : FactoryEntry F E → Bool
  | FactoryEntry.importFailure _ => true
  | FactoryEntry.factory _ => false

/-- The exceptions `_get_renderer_factory` can raise. -/
inductive ResolveErr (E : Type) : Type
  | syntaxError (msg : String)
  | importError (e : E)
  | valueError (msg : String)
deriving DecidableEq, Repr

/-- Python string comparison: lexicographic over code points. -/
def charListLt : List Char → List Char → Bool
  | [], [] => false
  | [], _ :: _ => true
  | _ :: _, [] => false
  | a :: as, b :: bs =>
    if a.toNat < b.toNat then true
    else if b.toNat < a.toNat then false
    else charListLt as bs

def strLt (a b : String) : Bool := charListLt a.data b.data

/-- Stable insertion step for sorting key/value pairs by key
(Python `sorted` over dict items: keys are unique so only keys are
compared). -/
def insertByKey {α : Type} (x : String × α) : List (String × α) → List (String × α)
  | [] => [x]
  | y :: ys => if strLt y.1 x.1 then y :: insertByKey x ys else x :: y :: ys

def sortByKey {α : Type} : List (String × α) → List (String × α)
  | [] => []
  | x :: xs => insertByKey x (sortByKey xs)

theorem insertByKey_perm {α : Type} (x : String × α) (l : List (String × α)) :
    List.Perm (insertByKey x l) (x :: l) := by
  induction l with
  | nil => rfl
  | cons y ys ih =>
    cases h : strLt y.1 x.1 with
    | true =>
      simp only [insertByKey, h, if_true]
      exact List.Perm.trans (List.Perm.cons y ih) (List.Perm.swap x y ys)
    | false =>
      simp only [insertByKey, h]
      rw [if_neg (by simp)]

theorem sortByKey_perm {α : Type} (l : List (String × α)) :
    List.Perm (sortByKey l) l := by
  induction l with
  | nil => rfl
  | cons x xs ih =>
    exact List.Perm.trans (insertByKey_perm x (sortByKey xs)) (List.Perm.cons x ih)

/-- `', '.join(items)`. -/
def joinSep (sep : String) : List String → String
  | [] => ""
  | [x] => x
  | x :: y :: xs => x ++ sep ++ joinSep sep (y :: xs)

def rendererPattern : String := "[a-z0-9.-_]+$"

def mediaTypePattern : String := "[A-Za-z0-9.+*-]+/[A-Za-z0-9.+*-]+$"

/-- The SyntaxError message for a malformed renderer name (lines 211-214):
names come sorted, *without* the star decoration used by the unknown-
renderer message. -/
def malformedRendererMsg {F E : Type} (renderer : String) (factories : Factories F E) :
    String :=
  "Malformed renderer " ++ renderer ++ ". It must match " ++ rendererPattern ++
  ". Possible renderers (might need third-party libs): " ++
  joinSep ", " ((sortByKey factories).map Prod.fst) ++ "."

/-- The decorated name list of the unknown-renderer message (lines
220-227): sorted by name, each degraded entry prefixed with `*`. -/
def possibleNames {F E : Type} (factories : Factories F E) : List String :=
  (sortByKey factories).map (fun p => if isImportFailure p.2 then "*" ++ p.1 else p.1)

/-- The legend is set inside the loop each time a degraded entry is seen,
so it ends up non-empty exactly when some entry is degraded. -/
def unknownLegend {F E : Type} (factories : Factories F E) : String :=
  if (sortByKey factories).any (fun p => isImportFailure p.2) then
    " (starred are missing third-party libraries)"
  else ""

def unknownRendererMsg {F E : Type} (media_type renderer : String)
    (factories : Factories F E) : String :=
  "Unknown renderer for " ++ media_type ++ ": " ++ renderer ++
  ". Possible renderers" ++ unknownLegend factories ++ ": " ++
  joinSep ", " (possibleNames factories) ++ "."

/-- Embedding of `Simplate._get_renderer_factory` (lines 206-231). -/
def get_renderer_factory {F E : Type} (factories : Factories F E)
    (media_type renderer : String) : Except (ResolveErr E) F :=
  if rendererReMatch renderer = false then
    Except.error (ResolveErr.syntaxError (malformedRendererMsg renderer factories))
  else
    match alistGet factories renderer with
    | some (FactoryEntry.importFailure e) => Except.error (ResolveErr.importError e)
    | some (FactoryEntry.factory f) => Except.ok f
    | none =>
      Except.error (ResolveErr.valueError (unknownRendererMsg media_type renderer factories))

/-- The media-type validation of `Simplate._parse_specline` (lines
193-198), applied to the media type after default substitution. -/
def validate_media_type (media_type specline : String) : Except String Unit :=
  if mediaTypeReMatch media_type = false then
    Except.error ("Malformed media type '" ++ media_type ++ "' in specline '" ++
      specline ++ "'. It must match " ++ mediaTypePattern ++ ".")
  else Except.ok ()

/-! ## The JSON module (`aspen/simplates/json_.py`)

The backing `json`/`simplejson` library is an external collaborator; its
documented serialization behaviour (separators, `indent`, `sort_keys`,
ASCII string escaping, the `default` hook called for objects the base
encoder cannot handle) is modelled here.  Python floats are identified
with their repr string, since only their serialized form matters. -/

/-- A value the base JSON encoder can serialize directly. -/
inductive JBasic : Type
  | jint (n : Int)
  | jfloat (r : String)
  | jstr (s : String)
  | jbool (b : Bool)
  | jnull
  | jarr (xs : List JBasic)
  | jobj (xs : List (String × JBasic))

/-- A Python value handed to `dumps`: basic values, containers, and the
types with registered encoders — `complex` (real and imaginary parts are
floats, kept as their reprs), `datetime.date`, `datetime.time`,
`datetime.datetime` (naive, with microseconds). -/
inductive PyObj : Type
  | pint (n : Int)
  | pfloat (r : String)
  | pstr (s : String)
  | pbool (b : Bool)
  | pnone
  | parr (xs : List PyObj)
  | pobj (xs : List (String × PyObj))
  | pcomplex (re im : String)
  | pdate (y m d : Nat)
  | ptime (h mi s us : Nat)
  | pdatetime (y mo d h mi s us : Nat)

/-- The `default` hook of a JSON encoder class: turns an object the base
encoder cannot handle into something basically serializable, or fails
(the base class raises TypeError, modelled as `none`). -/
abbrev JsonDefaultHandler := PyObj → Option JBasic

def pad2 (n : Nat) : String :=
  if n < 10 then "0" ++ toString n else toString n

def pad4 (n : Nat) : String :=
  if n < 10 then "000" ++ toString n
  else if n < 100 then "00" ++ toString n
  else if n < 1000 then "0" ++ toString n
  else toString n

def pad6 (n : Nat) : String :=
  if n < 10 then "00000" ++ toString n
  else if n < 100 then "0000" ++ toString n
  else if n < 1000 then "000" ++ toString n
  else if n < 10000 then "00" ++ toString n
  else if n < 100000 then "0" ++ toString n
  else toString n

/-- `datetime.date.isoformat()`: `YYYY-MM-DD`. -/
def date_isoformat (y m d : Nat) : String :=
  pad4 y ++ "-" ++ pad2 m ++ "-" ++ pad2 d

/-- `datetime.time.isoformat()` for a naive time: `HH:MM:SS`, with
`.ffffff` appended when the microsecond field is non-zero. -/
def time_isoformat (h mi s us : Nat) : String :=
  pad2 h ++ ":" ++ pad2 mi ++ ":" ++ pad2 s ++
  (if us = 0 then "" else "." ++ pad6 us)

/-- `datetime.datetime.isoformat()` for a naive datetime. -/
def datetime_isoformat (y mo d h mi s us : Nat) : String :=
  date_isoformat y mo d ++ "T" ++ time_isoformat h mi s us

/-- `FriendlyEncoder.default` with the module's default registry
(json_.py lines 44-58): `complex` maps to the two-element real/imaginary
list, `datetime`/`date`/`time` map to their `isoformat()` strings; any
other class falls through to the base encoder's `default`, which raises. -/
def friendly_default : JsonDefaultHandler
  | PyObj.pcomplex re im => some (JBasic.jarr [JBasic.jfloat re, JBasic.jfloat im])
  | PyObj.pdate y m d => some (JBasic.jstr (date_isoformat y m d))
  | PyObj.ptime h mi s us => some (JBasic.jstr (time_isoformat h mi s us))
  | PyObj.pdatetime y mo d h mi s us =>
    some (JBasic.jstr (datetime_isoformat y mo d h mi s us))
  | _ => none

/-- The base `JSONEncoder.default`: always raises TypeError. -/
def base_default : JsonDefaultHandler := fun _ => none

mutual

/-- Resolve every non-basic value through the encoder's `default` hook
(the registered encoders return basically-serializable values, so one
application suffices). -/
def toBasic (d : JsonDefaultHandler) : PyObj → Except String JBasic
  | PyObj.pint n => Except.ok (JBasic.jint n)
  | PyObj.pfloat r => Except.ok (JBasic.jfloat r)
  | PyObj.pstr s => Except.ok (JBasic.jstr s)
  | PyObj.pbool b => Except.ok (JBasic.jbool b)
  | PyObj.pnone => Except.ok JBasic.jnull
  | PyObj.parr xs =>
    match toBasicList d xs with
    | Except.ok ys => Except.ok (JBasic.jarr ys)
    | Except.error e => Except.error e
  | PyObj.pobj xs =>
    match toBasicPairs d xs with
    | Except.ok ys => Except.ok (JBasic.jobj ys)
    | Except.error e => Except.error e
  | x =>
    match d x with
    | some b => Except.ok b
    | none => Except.error "TypeError: not JSON serializable"

def toBasicList (d : JsonDefaultHandler) : List PyObj → Except String (List JBasic)
  | [] => Except.ok []
  | x :: xs =>
    match toBasic d x with
    | Except.error e => Except.error e
    | Except.ok y =>
      match toBasicList d xs with
      | Except.error e => Except.error e
      | Except.ok ys => Except.ok (y :: ys)

def toBasicPairs (d : JsonDefaultHandler) :
    List (String × PyObj) → Except String (List (String × JBasic))
  | [] => Except.ok []
  | (k, x) :: xs =>
    match toBasic d x with
    | Except.error e => Except.error e
    | Except.ok y =>
      match toBasicPairs d xs with
      | Except.error e => Except.error e
      | Except.ok ys => Except.ok ((k, y) :: ys)

end

def nspaces : Nat → String
  | 0 => ""
  | n + 1 => " " ++ nspaces n

def hexDigit (n : Nat) : Char :=
  if n < 10 then Char.ofNat ('0'.toNat + n) else Char.ofNat ('a'.toNat + (n - 10))

def hex4 (n : Nat) : String :=
  String.mk [hexDigit (n / 4096 % 16), hexDigit (n / 256 % 16),
             hexDigit (n / 16 % 16), hexDigit (n % 16)]

/-- `ensure_ascii` string escaping: the two-character escapes, `\uXXXX`
for other control and non-ASCII characters (surrogate pairs beyond the
BMP), everything else literal. -/
def escapeChar (c : Char) : String :=
  if c = '"' then "\\\""
  else if c = '\\' then "\\\\"
  else if c = '\n' then "\\n"
  else if c = '\t' then "\\t"
  else if c = '\r' then "\\r"
  else if c = Char.ofNat 8 then "\\b"
  else if c = Char.ofNat 12 then "\\f"
  else if 32 ≤ c.toNat ∧ c.toNat ≤ 126 then String.singleton c
  else if c.toNat ≤ 65535 then "\\u" ++ hex4 c.toNat
  else
    "\\u" ++ hex4 (55296 + (c.toNat - 65536) / 1024) ++
    "\\u" ++ hex4 (56320 + (c.toNat - 65536) % 1024)

def encodeJsonString (s : String) : String :=
  "\"" ++ String.join (s.data.map escapeChar) ++ "\""

/-- Wrap already-serialized items in brackets: without `indent` the item
separator is `", "`; with `indent = n` each item sits on its own line
indented one level deeper and the separator is `","` plus the newline. -/
def wrapSeq (opening closing : String) (ind : Option Nat) (level : Nat)
    (items : List String) : String :=
  match ind with
  | none => opening ++ joinSep ", " items ++ closing
  | some n =>
    opening ++ "\n" ++ nspaces (n * (level + 1)) ++
    joinSep ("," ++ "\n" ++ nspaces (n * (level + 1))) items ++
    "\n" ++ nspaces (n * level) ++ closing

mutual

/-- Serialization of a basic value, mirroring the library: `sk` is
`sort_keys`, `ind` is `indent`, the key separator is always `": "`. -/
def serJ (sk : Bool) (ind : Option Nat) (level : Nat) : JBasic → String
  | JBasic.jint n => toString n
  | JBasic.jfloat r => r
  | JBasic.jstr s => encodeJsonString s
  | JBasic.jbool b => if b then "true" else "false"
  | JBasic.jnull => "null"
  | JBasic.jarr [] => "[]"
  | JBasic.jarr (x :: xs) =>
    wrapSeq "[" "]" ind level (serJList sk ind (level + 1) (x :: xs))
  | JBasic.jobj [] => "\x7b\x7d"
  | JBasic.jobj (x :: xs) =>
    let pairs := serJPairs sk ind (level + 1) (x :: xs)
    let pairs := if sk then sortByKey pairs else pairs
    wrapSeq "\x7b" "\x7d" ind level
      (pairs.map (fun p => encodeJsonString p.1 ++ ": " ++ p.2))

def serJList (sk : Bool) (ind : Option Nat) (level : Nat) : List JBasic → List String
  | [] => []
  | x :: xs => serJ sk ind level x :: serJList sk ind level xs

def serJPairs (sk : Bool) (ind : Option Nat) (level : Nat) :
    List (String × JBasic) → List (String × String)
  | [] => []
  | (k, x) :: xs => (k, serJ sk ind level x) :: serJPairs sk ind level xs

end

/-- `_json.dumps(v, cls=..., sort_keys=..., indent=...)`. -/
def base_dumps (cls : JsonDefaultHandler) (sort_keys : Bool) (indent : Option Nat)
    (v : PyObj) : Except String String :=
  match toBasic cls v with
  | Except.ok b => Except.ok (serJ sort_keys indent 0 b)
  | Except.error e => Except.error e

/-- The keyword arguments the module's `dumps`/`dump` inspect: `none`
means the caller did not pass the keyword. -/
structure JsonKw : Type where
  cls : Option JsonDefaultHandler
  sort_keys : Option Bool
  indent : Option (Option Nat)

def emptyKw : JsonKw := ⟨none, none, none⟩

/-- Embedding of `json_.dumps` (json_.py lines 83-91): fill in
`cls=FriendlyEncoder`, `sort_keys=True`, `indent=4` for any keyword the
caller did not pass, then delegate to the library. -/
def dumps (kw : JsonKw) (v : PyObj) : Except String String :=
  base_dumps (kw.cls.getD friendly_default) (kw.sort_keys.getD true)
    (kw.indent.getD (some 4)) v

/-- Embedding of `json_.dump` (json_.py lines 68-76): identical keyword
defaulting; writing to the file object is modelled as returning the text
written. -/
def dump (kw : JsonKw) (v : PyObj) : Except String String :=
  base_dumps (kw.cls.getD friendly_default) (kw.sort_keys.getD true)
    (kw.indent.getD (some 4)) v

/-! ## Claim theorems -/

/-- C1: for every non-empty list of split pages, `parse_into_pages`
extends the pages exactly as the spec's page-count/header table says:
1 page gives `[empty, empty, page]`; 2 pages give
`[empty, pages[0], pages[1]]`; 3 or more pages with a non-empty header on
`pages[1]` get one empty page prepended; 3 or more pages with an empty
header on `pages[1]` are returned unchanged. -/
theorem C1_parse_into_pages_follows_table (pages : List Page) (h : 1 ≤ pages.length) :
    parse_into_pages pages = normalizeSpecTable pages := by
  rcases pages with _ | ⟨p, _ | ⟨q, _ | ⟨r, rest⟩⟩⟩
  · simp at h
  · rfl
  · rfl
  · rfl

/-- Witness for C1 at a concrete single page. -/
theorem C1_witness :
    parse_into_pages [⟨"", "Hello", 0⟩] = normalizeSpecTable [⟨"", "Hello", 0⟩] :=
  C1_parse_into_pages_follows_table [⟨"", "Hello", 0⟩] (by decide)

/-- Counterexample to C2 as stated: the run-once page of `sMut` bound `x`
to a mutable object (heap cell 0, initially `"orig"`); the first render
call's run-every page observes `"orig"` and mutates the object in place;
a second render call against the same compiled resource then observes the
mutated value `"mutated"`, not the original — the per-call copy of the
run-once bindings is shallow, so in-place mutations leak across calls. -/
theorem C2_counterexample_mutation_leaks :
    render_for_type sMut "text/plain" [] ["orig"] =
      Except.ok (⟨"text/plain", some "orig"⟩,
        [("output", PyVal.outputV), ("x", PyVal.ref 0)], ["mutated"]) ∧
    render_for_type sMut "text/plain" [] ["mutated"] =
      Except.ok (⟨"text/plain", some "mutated"⟩,
        [("output", PyVal.outputV), ("x", PyVal.ref 0)], ["mutated"]) ∧
    ("mutated" : String) ≠ "orig" :=
  ⟨rfl, rfl, by decide⟩

/-- C2 (amended): each render call overlays the caller context with an
entry-by-entry copy of the run-once bindings — every run-once binding
reappears with its stored value (for mutable objects, the same reference)
in the environment the run-every page executes in, so name rebindings in
one call never alter the stored bindings; but the copy is shallow, so a
second call whose run-once binding refers to an object mutated in place
by the first call observes the mutated value. -/
theorem C2_amended_shallow_copy :
    (∀ (s : Simplate) (ctx : Ctx) (k : String) (v : PyVal),
        (s.page_one.map Prod.fst).Nodup →
        alistGet s.page_one k = some v →
        alistGet (exec_context s ctx) k = some v) ∧
    render_for_type sMut "text/plain" [("y", PyVal.imm "2")] ["mutated"] =
      Except.ok (⟨"text/plain", some "mutated"⟩,
        [("y", PyVal.imm "2"), ("output", PyVal.outputV), ("x", PyVal.ref 0)],
        ["mutated"]) := by
  constructor
  · intro s ctx k v hnd hget
    exact alistGet_dictUpdate_mem _ _ _ _ hnd hget
  · rfl

/-- Witness for the amended C2 at a concrete simplate and context. -/
theorem C2_amended_witness :
    alistGet (exec_context sMut [("y", PyVal.imm "2")]) "x" = some (PyVal.ref 0) :=
  C2_amended_shallow_copy.1 sMut [("y", PyVal.imm "2")] "x" (PyVal.ref 0)
    (by decide) (by decide)

/-- C3: if executing the run-every page sets the output body, render
returns that Output immediately together with the exec-produced state,
and the result is independent of the registered renderers (so the
Renderer for the requested type is never invoked); otherwise the
registered Renderer is invoked on the (possibly `__all__`-narrowed)
context and its return value becomes the Output's body. -/
theorem C3_body_short_circuits_renderer (s : Simplate) (mt : String) (ctx : Ctx)
    (h : Heap) :
    (∀ v, (s.page_two (exec_context s ctx) h none).2.2 = some v →
      render_for_type s mt ctx h =
        Except.ok (⟨mt, some v⟩, (s.page_two (exec_context s ctx) h none).1,
          (s.page_two (exec_context s ctx) h none).2.1) ∧
      ∀ s' : Simplate, s'.page_one = s.page_one → s'.page_two = s.page_two →
        render_for_type s' mt ctx h = render_for_type s mt ctx h) ∧
    ((s.page_two (exec_context s ctx) h none).2.2 = none →
      ∀ (rend : Renderer) (tctx : Ctx),
        alistGet s.renderers mt = some rend →
        narrow (s.page_two (exec_context s ctx) h none).1 = Except.ok tctx →
        render_for_type s mt ctx h =
          Except.ok
            (⟨mt, some (rend tctx (s.page_two (exec_context s ctx) h none).2.1)⟩,
              (s.page_two (exec_context s ctx) h none).1,
              (s.page_two (exec_context s ctx) h none).2.1)) := by
  constructor
  · intro v hv
    constructor
    · simp only [render_for_type, hv]
    · intro s' h1 h2
      have hec : exec_context s' ctx = exec_context s ctx := by
        unfold exec_context
        rw [h1]
      simp only [render_for_type, hec, h2, hv]
  · intro hnone rend tctx hrend hnarrow
    simp only [render_for_type, hnone, hnarrow, hrend]

/-- Witness for C3: with the body set by the run-every page, erasing all
registered renderers does not change the result. -/
theorem C3_witness :
    render_for_type { sMut with renderers := [] } "text/plain" [] ["orig"] =
      render_for_type sMut "text/plain" [] ["orig"] :=
  ((C3_body_short_circuits_renderer sMut "text/plain" [] ["orig"]).1 "orig"
    (by decide)).2 { sMut with renderers := [] } rfl rfl

/-- C4: registering the compiled template pages succeeds exactly when the
resolved media types are pairwise distinct, in which case
`available_types` lists them in source declaration order; a repeated
media type fails with the SyntaxError naming the clashing (duplicated)
type. -/
theorem C4_available_types_and_duplicates {R : Type} (ps : List (R × String)) :
    ((ps.map Prod.snd).Nodup →
      content_pages_init ps =
        Except.ok (ps.map (fun p => (p.2, p.1)), ps.map Prod.snd)) ∧
    (¬ (ps.map Prod.snd).Nodup →
      ∃ t, t ∈ ps.map Prod.snd ∧
        content_pages_init ps = Except.error (dupMsg t) ∧
        2 ≤ (ps.map Prod.snd).count t) := by
  constructor
  · intro hnd
    have h := content_pages_go_ok ps [] [] (fun t _ => rfl) hnd
    simpa [content_pages_init] using h
  · intro hnd
    obtain ⟨t, htm, herr, hcnt⟩ := content_pages_go_err ps [] [] (Or.inl hnd)
    refine ⟨t, htm, herr, ?_⟩
    rcases hcnt with hc | hc
    · exact hc
    · simp [alistGet] at hc

/-- Witness for C4 at two distinct media types. -/
theorem C4_witness :
    content_pages_init [(1, "text/html"), (2, "text/plain")] =
      Except.ok ([("text/html", 1), ("text/plain", 2)], ["text/html", "text/plain"]) :=
  (C4_available_types_and_duplicates [(1, "text/html"), (2, "text/plain")]).1 (by decide)

/-- A registry with one healthy and one degraded entry, used as concrete
input below. -/
def demoFactories : Factories String String :=
  [("good", FactoryEntry.factory "G"), ("bad", FactoryEntry.importFailure "boom")]

/-- C5: for a (pattern-valid) renderer name reaching the registry lookup,
exactly one of three outcomes occurs: a registered factory is returned; a
stored load-failure placeholder is re-raised as itself; an absent name
fails with the unknown-renderer error whose message is built from every
registered name, degraded ones star-prefixed — and every registered name
does appear (decorated) in that list. -/
theorem C5_registry_resolution {F E : Type} (factories : Factories F E)
    (mt renderer : String) (hval : rendererReMatch renderer = true) :
    (∀ f, alistGet factories renderer = some (FactoryEntry.factory f) →
      get_renderer_factory factories mt renderer = Except.ok f) ∧
    (∀ e, alistGet factories renderer = some (FactoryEntry.importFailure e) →
      get_renderer_factory factories mt renderer =
        Except.error (ResolveErr.importError e)) ∧
    (alistGet factories renderer = none →
      get_renderer_factory factories mt renderer =
        Except.error (ResolveErr.valueError (unknownRendererMsg mt renderer factories))) ∧
    (∀ k v, (k, v) ∈ factories →
      (if isImportFailure v then "*" ++ k else k) ∈ possibleNames factories) := by
  refine ⟨?_, ?_, ?_, ?_⟩
  · intro f hget
    simp [get_renderer_factory, hval, hget]
  · intro e hget
    simp [get_renderer_factory, hval, hget]
  · intro hget
    simp [get_renderer_factory, hval, hget]
  · intro k v hmem
    have hm : (k, v) ∈ sortByKey factories := (sortByKey_perm factories).mem_iff.2 hmem
    exact List.mem_map_of_mem _ hm

/-- Witness for C5: resolving a registered, pattern-valid name returns
its factory. -/
theorem C5_witness :
    get_renderer_factory demoFactories "text/plain" "good" = Except.ok "G" :=
  (C5_registry_resolution demoFactories "text/plain" "good" (by decide)).1 "G" (by decide)

/-- C6 (code bug): the source's `renderer_re`, `r'[a-z0-9.-_]+$'`, parses
`.-_` as a character range (0x2E to 0x5F), so it accepts `"Z"` — which
the spec's token pattern (lowercase letters, digits, `.`, `-`, `_`)
rejects — and rejects `"a-b"`, which the spec's pattern accepts; a
pattern-passing but unregistered name like `"Z"` then flows on to the
registry and produces the unknown-renderer ValueError instead of the
SyntaxError the claim requires.  The media-type regex, by contrast,
matches the claim. -/
theorem C6_renderer_charclass_range_bug :
    rendererReMatch "Z" = true ∧
    specRendererToken "Z" = false ∧
    rendererReMatch "a-b" = false ∧
    specRendererToken "a-b" = true ∧
    mediaTypeReMatch "text/plain" = true ∧
    mediaTypeReMatch "text plain" = false ∧
    get_renderer_factory demoFactories "text/plain" "Z" =
      Except.error (ResolveErr.valueError (unknownRendererMsg "text/plain" "Z" demoFactories)) :=
  ⟨rfl, rfl, rfl, rfl, rfl, rfl, rfl⟩

/-- Counterexample to C7 as stated: `"text/html"` is not among `sMut`'s
available types, yet rendering for it succeeds — because the run-every
page set the output body, the renderer lookup (where the unsupported
media type would surface) is never reached. -/
theorem C7_counterexample_body_set :
    ("text/html" ∉ sMut.available_types) ∧
    render_for_type sMut "text/html" [] ["orig"] =
      Except.ok (⟨"text/html", some "orig"⟩,
        [("output", PyVal.outputV), ("x", PyVal.ref 0)], ["mutated"]) :=
  ⟨by decide, rfl⟩

/-- C7 (amended): rendering for a media type absent from
`available_types` fails with the MediaTypeNotSupported error, provided
the run-every page leaves the output body unset (and the `__all__`
narrowing succeeds); `available_types` mirrors the renderer dict's keys,
as construction guarantees. -/
theorem C7_amended_unsupported_type (s : Simplate) (mt : String) (ctx : Ctx) (h : Heap)
    (hkeys : s.available_types = s.renderers.map Prod.fst)
    (hmem : mt ∉ s.available_types)
    (hbody : (s.page_two (exec_context s ctx) h none).2.2 = none)
    (hnarrow : ∃ tctx, narrow (s.page_two (exec_context s ctx) h none).1 = Except.ok tctx) :
    render_for_type s mt ctx h = Except.error (RenderErr.mediaTypeNotSupported mt) := by
  obtain ⟨tctx, ht⟩ := hnarrow
  have hrget : alistGet s.renderers mt = none := by
    apply alistGet_eq_none_of_not_mem
    rw [← hkeys]
    exact hmem
  simp only [render_for_type, hbody, ht, hrget]

/-- Witness for the amended C7 at a concrete simplate whose run-every
page leaves the body unset. -/
theorem C7_witness :
    render_for_type sPlain "application/json" [] [] =
      Except.error (RenderErr.mediaTypeNotSupported "application/json") :=
  C7_amended_unsupported_type sPlain "application/json" [] [] rfl (by decide)
    (by decide) ⟨[("output", PyVal.outputV)], rfl⟩

/-- Counterexample to C8 as stated: a render call against `sPlain` with
an initially empty caller context leaves the caller's dict holding the
`output` binding — the caller-supplied context *is* changed by the call
(the source's own docstring warns about this). -/
theorem C8_counterexample_context_mutated :
    render_for_type sPlain "text/plain" [] [] =
      Except.ok (⟨"text/plain", some "hi"⟩, [("output", PyVal.outputV)], []) ∧
    ([("output", PyVal.outputV)] : Ctx) ≠ ([] : Ctx) :=
  ⟨rfl, by decide⟩

/-- C8 (amended): a successful render call produces an Output carrying
the requested media type, and its only effects beyond the Output are the
documented caller-context updates: the final caller-visible context and
heap are exactly those produced by running the run-every page in the
overlaid environment — the narrowing and renderer stages change neither;
the compiled resource itself is a pure value the call cannot change. -/
theorem C8_amended_effects (s : Simplate) (mt : String) (ctx : Ctx) (h : Heap)
    (out : Output) (ctx' : Ctx) (h' : Heap)
    (hok : render_for_type s mt ctx h = Except.ok (out, ctx', h')) :
    out.media_type = mt ∧
    ctx' = (s.page_two (exec_context s ctx) h none).1 ∧
    h' = (s.page_two (exec_context s ctx) h none).2.1 := by
  simp only [render_for_type] at hok
  cases hb : (s.page_two (exec_context s ctx) h none).2.2 with
  | some v =>
    rw [hb] at hok
    simp only [Except.ok.injEq, Prod.mk.injEq] at hok
    obtain ⟨ho, hc, hh⟩ := hok
    exact ⟨by rw [← ho], hc.symm, hh.symm⟩
  | none =>
    rw [hb] at hok
    cases hn : narrow (s.page_two (exec_context s ctx) h none).1 with
    | error e => rw [hn] at hok; simp at hok
    | ok tctx =>
      rw [hn] at hok
      cases hr : alistGet s.renderers mt with
      | none => rw [hr] at hok; simp at hok
      | some rend =>
        rw [hr] at hok
        simp only [Except.ok.injEq, Prod.mk.injEq] at hok
        obtain ⟨ho, hc, hh⟩ := hok
        exact ⟨by rw [← ho], hc.symm, hh.symm⟩

/-- Witness for the amended C8 at a concrete successful render call. -/
theorem C8_witness :
    (⟨"text/plain", some "hi"⟩ : Output).media_type = "text/plain" ∧
    ([("output", PyVal.outputV)] : Ctx) =
      (sPlain.page_two (exec_context sPlain []) [] none).1 ∧
    ([] : Heap) = (sPlain.page_two (exec_context sPlain []) [] none).2.1 :=
  C8_amended_effects sPlain "text/plain" [] [] ⟨"text/plain", some "hi"⟩
    [("output", PyVal.outputV)] [] rfl

/-- C10: whenever the run-every page sets the output body, the render
call returns that Output — carrying the requested media type — without
any error, for *every* media type, supported or not: the renderer
lookup, and with it the unsupported-media-type failure, lies only on the
path taken when the body is still unset. -/
theorem C10_body_set_bypasses_type_check (s : Simplate) (mt : String) (ctx : Ctx)
    (h : Heap) (v : String)
    (hbody : (s.page_two (exec_context s ctx) h none).2.2 = some v) :
    render_for_type s mt ctx h =
      Except.ok (⟨mt, some v⟩, (s.page_two (exec_context s ctx) h none).1,
        (s.page_two (exec_context s ctx) h none).2.1) := by
  simp only [render_for_type, hbody]

/-- Witness for C10 at a media type absent from the available types. -/
theorem C10_witness :
    ("application/xml" ∉ sMut.available_types) ∧
    render_for_type sMut "application/xml" [] ["orig"] =
      Except.ok (⟨"application/xml", some "orig"⟩,
        [("output", PyVal.outputV), ("x", PyVal.ref 0)], ["mutated"]) :=
  ⟨by decide, C10_body_set_bypasses_type_check sMut "application/xml" [] ["orig"] "orig"
    (by decide)⟩

/-- C9: `dumps` (and `dump`) without explicit `cls`, `sort_keys` or
`indent` serialize with the friendly encoder, sorted keys and 4-space
indentation; the friendly encoder maps complex numbers to the two-element
real/imaginary sequence and date/time/datetime values to their ISO-8601
strings; in particular the single-key object from the spec's example maps
to the pretty-printed body the spec displays, and keys come out sorted. -/
theorem C9_json_dumps_defaults :
    (∀ v, dumps emptyKw v = base_dumps friendly_default true (some 4) v) ∧
    (∀ v, dump emptyKw v = dumps emptyKw v) ∧
    (∀ re im, toBasic friendly_default (PyObj.pcomplex re im) =
      Except.ok (JBasic.jarr [JBasic.jfloat re, JBasic.jfloat im])) ∧
    (∀ y m d, toBasic friendly_default (PyObj.pdate y m d) =
      Except.ok (JBasic.jstr (date_isoformat y m d))) ∧
    (∀ h mi s us, toBasic friendly_default (PyObj.ptime h mi s us) =
      Except.ok (JBasic.jstr (time_isoformat h mi s us))) ∧
    (∀ y mo d h mi s us, toBasic friendly_default (PyObj.pdatetime y mo d h mi s us) =
      Except.ok (JBasic.jstr (datetime_isoformat y mo d h mi s us))) ∧
    date_isoformat 2008 9 3 = "2008-09-03" ∧
    time_isoformat 13 5 9 0 = "13:05:09" ∧
    dumps emptyKw (PyObj.pobj [("a", PyObj.pint 1)]) =
      Except.ok "\x7b\n    \"a\": 1\n\x7d" ∧
    dumps emptyKw (PyObj.pobj [("b", PyObj.pint 2), ("a", PyObj.pint 1)]) =
      Except.ok "\x7b\n    \"a\": 1,\n    \"b\": 2\n\x7d" :=
  ⟨fun _ => rfl, fun _ => rfl, fun _ _ => rfl, fun _ _ _ => rfl,
    fun _ _ _ _ => rfl, fun _ _ _ _ _ _ _ => rfl, rfl, rfl, rfl, rfl⟩

end AspenSpec
